import Mathlib

/-!
Verification development for `chex/_src/fake.py`.

The module under verification provides test-time patching utilities for JAX:
fake (identity) `jax.jit`, a fake `jax.pmap` implemented via `jax.vmap`,
identity implementations of the `jax.lax` collective reductions, a leading-axis
`all_gather`, XLA device-count environment-variable helpers, and a generic
callback-injecting patch for a named function transformation.

Modelling conventions:
* Python strings are `List Char`; the `XLA_FLAGS` environment value is a
  `List Char` (`[]` both for unset and for the empty string, matching
  `os.getenv('XLA_FLAGS', '')`).
* JAX pytrees are rose trees (`PyTree`/`PyForest`) with abstract array leaves
  (`Arr`, a shape plus flat data).
* Fallible Python code returns `Except PyErr`.
* The mutable JAX globals that the module patches are gathered in a record
  `JaxGlobals`; a context manager is modelled as a function from the state at
  entry to (state after entry, restore function applied to the state at exit),
  mirroring `contextlib.ExitStack` (exits run in reverse order of entry).
* `jax.vmap` and `jax.jit` as used by the fake pmap, and the real collectives,
  are opaque: they are fields of `JaxGlobals` (resp. explicit function
  parameters) about which nothing is assumed.
-/

namespace ChexFake

/-- Kinds of Python exceptions raised by the modelled code paths.  Signature
binding errors, `int(None)` and `list(None)` all raise `TypeError` in Python,
so they share the `typeError` constructor. -/
inductive PyErr where
  | typeError
  | notImplementedError
  | indexError
  | runtimeError
deriving DecidableEq, Repr

/-- A JAX-style array leaf: a shape and flat data.  Only the structure of
arrays matters to the claims (`t[jnp.newaxis]` prepends a length-1 axis and
keeps the data). -/
structure Arr where
  shape : List Nat
  data : List Int
deriving DecidableEq, Repr

mutual

/-- A pytree with leaves of type `α` (tuples/lists/dicts of the Python side are
all modelled as `node`s over an ordered forest of children). -/
inductive PyTree (α : Type) where
  | leaf : α → PyTree α
  | node : PyForest α → PyTree α

/-- The children of a pytree node. -/
inductive PyForest (α : Type) where
  | nil : PyForest α
  | cons : PyTree α → PyForest α → PyForest α

end

instance : Inhabited (PyTree α) := ⟨.node .nil⟩

mutual

/-- `jax.tree_map` of a single-argument function over one pytree. -/
def treeMap (f : α → β) : PyTree α → PyTree β
  | .leaf a => .leaf (f a)
  | .node l => .node (forestMap f l)

/-- `treeMap` over the children of a node. -/
def forestMap (f : α → β) : PyForest α → PyForest β
  | .nil => .nil
  | .cons t ts => .cons (treeMap f t) (forestMap f ts)

end

/-- A JAX value: a pytree of arrays. -/
abbrev V := PyTree Arr

/-- A plain callable taking positional arguments only (the shape in which
`_fake_pmap` invokes `fn` and the vmapped function). -/
abbrev Fn := List V → V

/-- Positional plus keyword arguments of a Python call. -/
abbrev CallIn := List V × List (String × V)

/-- A Python function together with its `inspect.signature`.  The signature is
modelled as the ordered list of positional-or-keyword parameter names (no
defaults, no varargs), which is the shape `convert_to_varargs` relies on. -/
structure SigFn where
  params : List String
  fn : Fn

/-- A per-argument `in_axes` entry: a pytree whose leaves are either an axis
index (`some i`) or Python `None`. -/
abbrev AxTree := PyTree (Option Int)

/-- The `in_axes` argument of `pmap`/`vmap`: an int, `None`, a list/tuple of
per-argument entries, or a dict. -/
inductive InAxes where
  | int : Int → InAxes
  | noneAx : InAxes
  | seq : List AxTree → InAxes
  | dict : List (String × AxTree) → InAxes

/-- `isinstance(in_axes, dict)`. -/
def InAxes.isDictForm : InAxes → Bool
  | .dict _ => true
  | _ => false

/-- The `static_broadcasted_argnums` argument: an int or an iterable of ints. -/
inductive SbaArg where
  | int : Nat → SbaArg
  | iter : List Nat → SbaArg

/-- The normalisation performed by `_fake_pmap`: an int `n` becomes the tuple
`(n,)`; the resulting tuple is truthy iff it is non-empty. -/
def normalizeSba : SbaArg → List Nat
  | .int n => [n]
  | .iter l => l

/-- The transformation produced by the fake pmap: it is called with positional
and keyword arguments and can raise. -/
abbrev Wrapped := List V → List (String × V) → Except PyErr V

/-- The type of the `jax.jit` global: takes a function plus further
positional/keyword arguments and returns a function. -/
abbrev JitT := Fn → CallIn → Fn

/-- The type of the `jax.vmap` global: `jax.vmap(fn, in_axes=..., axis_name=...)`. -/
abbrev VmapT := Fn → InAxes → Option String → Fn

/-- The type of the `jax.pmap` global as invoked through the fake:
`pmap(fn, axis_name, in_axes=..., static_broadcasted_argnums=...)`
(remaining keyword arguments are ignored by the fake and omitted). -/
abbrev PmapT := SigFn → Option String → InAxes → SbaArg → Except PyErr Wrapped

/-- The type of a `jax.lax` collective as invoked through the fakes: a first
argument plus further ignored positional/keyword arguments. -/
abbrev CollT := V → CallIn → V

/-- A function instrumented for tracing: calling it yields a list of events of
type `ε` (its visible effects) along with its result.  Used to express the
ordering guarantees of `OnCallOfTransformedFunction`. -/
abbrev TFn (ε : Type) := CallIn → List ε × V

/-- The type of a named function transformation (such as `jax.jit`) as patched
by `OnCallOfTransformedFunction`: it receives the function to transform plus
the transformation's own arguments and returns the transformed function. -/
abbrev Transformation (ε : Type) := TFn ε → CallIn → TFn ε

/-- The mutable globals that `chex._src.fake` patches, plus `jax.vmap` (read
but never patched) and the `jax_disable_jit` config setting.  `target` is the
global named by `fn_transformation` in `OnCallOfTransformedFunction`. -/
structure JaxGlobals (ε : Type) where
  vmap : VmapT
  jit : JitT
  pmap : PmapT
  psum : CollT
  pmean : CollT
  pmax : CollT
  pmin : CollT
  allGather : CollT
  disableJit : Bool
  target : Transformation ε

/-- A started context: the state after `__enter__` together with the restore
action `__exit__` performs on the state current at exit time.  `FakeContext`
in the source is an `ExitStack` whose `start`/`stop` call
`__enter__`/`__exit__`; exceptions also run `__exit__`, so every way of
leaving the context applies the same restore action. -/
abbrev FakeContext (ε : Type) := JaxGlobals ε × (JaxGlobals ε → JaxGlobals ε)

/-! ### The XLA_FLAGS device-count helpers -/

/-- Python `\s` on the whitespace characters relevant here (ASCII; the source
strings never contain non-ASCII whitespace). `str.split()` splits on the same
set. -/
def isSpace (c : Char) : Bool :=
  c = ' ' || c = '\t' || c = '\n' || c = '\r' || c = '\x0b' || c = '\x0c'

/-- `p.isPrefixOf s` for char lists, self-contained. -/
def listStartsWith : List Char → List Char → Bool
  | [], _ => true
  | _ :: _, [] => false
  | p :: ps, c :: cs => p = c && listStartsWith ps cs

/-- Number of leading `'-'` characters. -/
def countLeadingDashes : List Char → Nat
  | [] => 0
  | c :: cs => if c = '-' then countLeadingDashes cs + 1 else 0

/-- The literal part of `_xla_device_count_flag_regexp` after the optional
dashes: `xla_force_host_platform_device_count=`. -/
def flagLiteral : List Char := "xla_force_host_platform_device_count=".data

/-- Numeric value of a digit character. -/
def charVal (c : Char) : Nat := c.toNat - 48

/-- Python `int` on a non-empty string of decimal digits. -/
def parseDigits (l : List Char) : Nat := l.foldl (fun a c => a * 10 + charVal c) 0

/-- Matching of `_xla_device_count_flag_regexp`, i.e.
`[-]{0,2}xla_force_host_platform_device_count=(\d+)?(\s|$)`, anchored at the
start of `s`.  Returns the captured group 1 (`none` when the optional digit
group matched empty) and the characters following the match.

The backtracking of the Python engine is resolved deterministically:
* `[-]{0,2}` can only succeed by consuming every leading dash (at most 2),
  because the following literal starts with `'x'`, not `'-'`;
* `(\d+)?` greedily takes the maximal digit run; taking fewer digits can never
  help, because the next character would then be a digit, which is neither
  `\s` nor the end of the string;
* in `(\s|$)` the `\s` branch is tried first, and `$` before a trailing
  newline is subsumed by `\s` matching that newline, so `$` only ever matches
  the true end of the string. -/
def digitGroup (digits : List Char) : Option Nat :=
  if digits.isEmpty then none else some (parseDigits digits)

/-- The `(\d+)?(\s|$)` part of the match, applied to what follows the
literal: take the maximal digit run as group 1, then require a whitespace
character (consumed) or the end of the string. -/
def matchAfterLiteral (afterLit : List Char) : Option (Option Nat × List Char) :=
  match afterLit.dropWhile Char.isDigit with
  | [] => some (digitGroup (afterLit.takeWhile Char.isDigit), [])
  | c :: cs =>
      if isSpace c then some (digitGroup (afterLit.takeWhile Char.isDigit), cs)
      else none

def matchFlagAt (s : List Char) : Option (Option Nat × List Char) :=
  if countLeadingDashes s ≤ 2 then
    if listStartsWith flagLiteral (s.drop (countLeadingDashes s)) then
      matchAfterLiteral ((s.drop (countLeadingDashes s)).drop flagLiteral.length)
    else none
  else none

/-- `get_n_cpu_devices_from_xla_flags`: `re.match` the device-count regexp
against `XLA_FLAGS` (anchored at position 0); on a match return
`int(m.group(1))` — a Python `TypeError` when the digit group is empty — and
`1` otherwise. -/
def get_n_cpu_devices_from_xla_flags (xlaFlags : List Char) : Except PyErr Nat :=
  match matchFlagAt xlaFlags with
  | some (some d, _) => .ok d
  | some (none, _) => .error .typeError
  | none => .ok 1

/-- Little-endian decimal digits of `n`, with fuel (`n` itself is always
sufficient fuel since `n / 10 < n` for `n > 0`). -/
def natDigitsRevF : Nat → Nat → List Nat
  | 0, _ => []
  | _ + 1, 0 => []
  | f + 1, n + 1 => (n + 1) % 10 :: natDigitsRevF f ((n + 1) / 10)

/-- Decimal rendering of a natural number, as produced by the f-string
`f'--xla_force_host_platform_device_count={n}'`. -/
def natCharsOf (n : Nat) : List Char :=
  if n = 0 then ['0'] else ((natDigitsRevF n n).reverse).map Nat.digitChar

/-- One pass of `re.sub(_xla_device_count_flag_regexp, '', s)`: scan left to
right, removing each non-overlapping match (all matches are at least as long
as the literal, so there are no empty matches).  Fuel `s.length` suffices:
every step consumes at least one character. -/
def subFlagAllF : Nat → List Char → List Char
  | 0, _ => []
  | _ + 1, [] => []
  | fuel + 1, c :: cs =>
    match matchFlagAt (c :: cs) with
    | some (_, rest) => subFlagAllF fuel rest
    | none => c :: subFlagAllF fuel cs

/-- `re.sub(_xla_device_count_flag_regexp, '', s)`. -/
def subFlagAll (s : List Char) : List Char := subFlagAllF s.length s

/-- Number of non-overlapping matches of the device-count regexp found by a
left-to-right scan (how many device-count flags a string contains).  Fueled
like `subFlagAllF`. -/
def countFlagMatchesF : Nat → List Char → Nat
  | 0, _ => 0
  | _ + 1, [] => 0
  | fuel + 1, c :: cs =>
    match matchFlagAt (c :: cs) with
    | some (_, rest) => countFlagMatchesF fuel rest + 1
    | none => countFlagMatchesF fuel cs

/-- Number of device-count flag matches contained in `s`. -/
def countFlagMatches (s : List Char) : Nat := countFlagMatchesF s.length s

/-- Python `str.split()`: split on runs of whitespace, dropping empty pieces.
Fueled like `subFlagAllF`. -/
def splitWsF : Nat → List Char → List (List Char)
  | 0, _ => []
  | _ + 1, [] => []
  | fuel + 1, c :: cs =>
    if isSpace c then splitWsF fuel cs
    else ((c :: cs).takeWhile (fun d => !isSpace d))
      :: splitWsF fuel ((c :: cs).dropWhile (fun d => !isSpace d))

/-- Python `str.split()`. -/
def splitWs (s : List Char) : List (List Char) := splitWsF s.length s

/-- The new device-count flag `--xla_force_host_platform_device_count={n}`. -/
def mkDeviceFlag (n : Nat) : List Char :=
  '-' :: '-' :: (flagLiteral ++ natCharsOf n)

/-- `' '.join([flag] + tokens)` equals `flag` followed by a space before each
further token; this is the trailing part. -/
def joinTokensTail (toks : List (List Char)) : List Char :=
  (toks.map (fun t => ' ' :: t)).flatten

/-- The value written to `os.environ['XLA_FLAGS']` by `set_n_cpu_devices`:
`' '.join([f'--xla_force_host_platform_device_count={n}'] + re.sub(flag_re, '', old).split())`. -/
def set_n_env (n : Nat) (xlaFlags : List Char) : List Char :=
  mkDeviceFlag n ++ joinTokensTail (splitWs (subFlagAll xlaFlags))

/-- `set_n_cpu_devices(n)`.  `chexNCpuDevicesFlag` models
`FLAGS['chex_n_cpu_devices'].value` (used via Python `n or FLAGS[...]` when
`n` is `None` or `0`); `cpuBackendInitialized` models whether
`jax.lib.xla_bridge._backends` already holds a `'cpu'` backend.  Returns the
new `XLA_FLAGS` value on success. -/
def set_n_cpu_devices (n : Option Nat) (chexNCpuDevicesFlag : Nat)
    (cpuBackendInitialized : Bool) (xlaFlags : List Char) : Except PyErr (List Char) := do
  let nv : Nat := match n with
    | some m => if m = 0 then chexNCpuDevicesFlag else m
    | none => chexNCpuDevicesFlag
  let nDevices ← get_n_cpu_devices_from_xla_flags xlaFlags
  if cpuBackendInitialized && nDevices != nv then
    throw PyErr.runtimeError
  else
    pure (set_n_env nv xlaFlags)

/-! ### The fake transformations -/

/-- `_fake_jit`: return `fn`, ignoring every other argument. -/
def _fake_jit (fn : Fn) (_unused : CallIn) : Fn := fn

/-- `convert_to_varargs`: `sig.bind(*args, **kwargs).args` for a signature of
plain positional-or-keyword parameters without defaults.  Raises `TypeError`
(as `Signature.bind` does) on too many positional arguments, on a keyword that
repeats a positionally-filled parameter, on an unexpected keyword, and on a
missing argument. -/
def convert_to_varargs (params : List String) (args : List V)
    (kwargs : List (String × V)) : Except PyErr (List V) :=
  if params.length < args.length then .error .typeError
  else if kwargs.any (fun kv => (params.take args.length).contains kv.1) then .error .typeError
  else if kwargs.any (fun kv => !params.contains kv.1) then .error .typeError
  else
    ((params.drop args.length).mapM (fun p =>
        match kwargs.lookup p with
        | some v => Except.ok v
        | none => Except.error PyErr.typeError)).map (fun vs => args ++ vs)

/-- One iteration of the loop
`for argnum in static_broadcasted_argnums: vmap_in_axes[argnum] = jax.tree_map(lambda _: None, call_args[argnum])`.
The right-hand side (`call_args[argnum]`, a tuple index) is evaluated first;
both it and the list assignment raise `IndexError` when out of range. -/
def sbaStepM (call_args : List V) (acc : List AxTree) (argnum : Nat) :
    Except PyErr (List AxTree) :=
  match call_args.get? argnum with
  | none => throw PyErr.indexError
  | some arg =>
    if argnum < acc.length then
      pure (acc.set argnum (treeMap (fun _ => (none : Option Int)) arg))
    else throw PyErr.indexError

/-- The `vmap_in_axes` computation inside `wrapped_fn`.  When
`static_broadcasted_argnums` is empty, `in_axes` is passed through unchanged.
Otherwise: an int `in_axes` is broadcast by `jax.tree_map(lambda _: in_axes, call_args)`
over the tuple of call arguments and `list(...)` takes the per-argument
entries; a list/tuple `in_axes` is copied by `list(in_axes)`; `list(None)`
raises `TypeError`; the dict case is unreachable because `_fake_pmap` already
raised `NotImplementedError`.  Then the static argument positions are
overwritten with `None`-trees. -/
def buildVmapInAxes (in_axes : InAxes) (sbaL : List Nat) (call_args : List V) :
    Except PyErr InAxes :=
  if sbaL.isEmpty then pure in_axes
  else do
    let base ← (match in_axes with
      | .int n => pure (call_args.map (fun a => treeMap (fun _ => (some n : Option Int)) a))
      | .seq l => pure l
      | .noneAx => throw PyErr.typeError
      | .dict _ => throw PyErr.notImplementedError)
    let upd ← sbaL.foldlM (sbaStepM call_args) base
    pure (.seq upd)

/-- `_fake_pmap`: fake implementation of `pmap` using `vmap`.  `vmapG` and
`jitG` are the `jax.vmap` and `jax.jit` globals the wrapped function invokes
(looked up inside a plain `fake_pmap` context, where they hold their original
values). -/
def _fake_pmap (vmapG : VmapT) (jitG : JitT) (f : SigFn) (axis_name : Option String)
    (in_axes : InAxes) (static_broadcasted_argnums : SbaArg) (jit_result : Bool) :
    Except PyErr Wrapped :=
  let sbaL := normalizeSba static_broadcasted_argnums
  if !sbaL.isEmpty && in_axes.isDictForm then
    .error .notImplementedError
  else
    .ok (fun args kwargs => do
      let call_args ← convert_to_varargs f.params args kwargs
      let vmap_in_axes ← buildVmapInAxes in_axes sbaL call_args
      let vmapped_fn := vmapG f.fn vmap_in_axes axis_name
      let vmapped_fn2 := if jit_result then jitG vmapped_fn ([], []) else vmapped_fn
      pure (vmapped_fn2 call_args))

/-- `_identity`: return the first argument, ignoring the rest. -/
def _identity (x : V) (_unused : CallIn) : V := x

/-- `_fake_psum = functools.wraps(jax.lax.psum)(_identity)`. -/
def _fake_psum : CollT := _identity

/-- `_fake_pmean = functools.wraps(jax.lax.pmean)(_identity)`. -/
def _fake_pmean : CollT := _identity

/-- `_fake_pmax = functools.wraps(jax.lax.pmax)(_identity)`. -/
def _fake_pmax : CollT := _identity

/-- `_fake_pmin = functools.wraps(jax.lax.pmin)(_identity)`. -/
def _fake_pmin : CollT := _identity

/-- `t[jnp.newaxis]`: prepend a length-1 axis. -/
def addLeadingDim (t : Arr) : Arr := { shape := 1 :: t.shape, data := t.data }

/-- `_fake_all_gather`: map `t ↦ t[jnp.newaxis]` over the input tree, ignoring
all further arguments. -/
def _fake_all_gather (x : V) (_unused : CallIn) : V := treeMap addLeadingDim x

/-! ### The patching context managers -/

/-- `fake_jit(enable_patching)`: when enabled, patch `jax.jit` with
`_fake_jit`, then set the `jax_disable_jit` config to `True`, remembering the
previous values; the exit action restores them in reverse order of entry. -/
def fake_jit (enable_patching : Bool) (s : JaxGlobals ε) : FakeContext ε :=
  if enable_patching then
    let saved_jit := s.jit
    let s1 := { s with jit := _fake_jit }
    let original_value := s1.disableJit
    let s2 := { s1 with disableJit := true }
    (s2, fun t => { { t with disableJit := original_value } with jit := saved_jit })
  else (s, fun t => t)

/-- `fake_pmap(enable_patching, jit_result)`: when enabled, patch `jax.pmap`
with `functools.partial(_fake_pmap, jit_result=jit_result)` and the five
`jax.lax` collectives with their fakes, remembering the previous values; the
exit action restores them.  The installed pmap invokes the `jax.vmap` and
`jax.jit` globals, which inside a plain `fake_pmap` context hold the values
they had at entry. -/
def fake_pmap (enable_patching : Bool) (jit_result : Bool) (s : JaxGlobals ε) :
    FakeContext ε :=
  if enable_patching then
    ({ s with
        pmap := fun f an ia sba => _fake_pmap s.vmap s.jit f an ia sba jit_result,
        psum := _fake_psum,
        pmean := _fake_pmean,
        pmax := _fake_pmax,
        pmin := _fake_pmin,
        allGather := _fake_all_gather },
     fun t => { t with
        pmap := s.pmap,
        psum := s.psum,
        pmean := s.pmean,
        pmax := s.pmax,
        pmin := s.pmin,
        allGather := s.allGather })
  else (s, fun t => t)

/-- `fake_pmap_and_jit(enable_pmap_patching, enable_jit_patching)`: an
`ExitStack` entering `fake_pmap` then `fake_jit`; its exit runs the `fake_jit`
restore first, then the `fake_pmap` restore. -/
def fake_pmap_and_jit (enable_pmap_patching enable_jit_patching : Bool)
    (s : JaxGlobals ε) : FakeContext ε :=
  let c1 := fake_pmap enable_pmap_patching false s
  let c2 := fake_jit enable_jit_patching c1.1
  (c2.1, fun t => c1.2 (c2.2 t))

/-- `OnCallOfTransformedFunction.__enter__` together with the `__exit__`
restore action.  The named global (`fn_transformation`, here the `target`
slot) is replaced by a transformation that first applies the original one and
then wraps the transformed function so that every call invokes the callback
(on the originally-transformed function and the call's arguments), discards
its result, and then runs the transformed function; `__exit__` restores the
original value saved by `mock.patch.get_original()` before the patch
started. -/
def OnCallOfTransformedFunction (callback_fn : TFn ε → CallIn → List ε × δ)
    (s : JaxGlobals ε) : FakeContext ε :=
  ({ s with target := fun fn targs =>
      let transformed_fn := s.target fn targs
      fun callIn =>
        let cbOut := callback_fn transformed_fn callIn
        let fnOut := transformed_fn callIn
        (cbOut.1 ++ fnOut.1, fnOut.2) },
   fun t => { t with target := s.target })

/-! ### Specification-side definitions for the refinement claim C1

These two definitions follow the claim's wording (not the code) and are
compared against the code-side `_fake_pmap`. -/

/-- The per-argument `in_axes` entries, for the claim's phrase "the in_axes
entry for each listed argument position": for an int `in_axes` every
argument's entry is that int mapped over the argument's structure; for a
list/tuple `in_axes` the entries are its elements. -/
def inAxesEntries (in_axes : InAxes) (call_args : List V) : Option (List AxTree) :=
  match in_axes with
  | .int n => some (call_args.map (fun a => treeMap (fun _ => (some n : Option Int)) a))
  | .seq l => some l
  | _ => none

/-- Claim-side adjusted in_axes: when `static_broadcasted_argnums` is
non-empty, the entry of each listed argument position is replaced by `None`
mapped over the structure of that argument; otherwise `in_axes` is passed to
`vmap` unchanged. -/
def spec_pmap_axes (in_axes : InAxes) (sbaL : List Nat) (call_args : List V) : InAxes :=
  if sbaL.isEmpty then in_axes
  else
    match inAxesEntries in_axes call_args with
    | some entries =>
        InAxes.seq ((List.range entries.length).map (fun i =>
          if i ∈ sbaL then treeMap (fun _ => (none : Option Int)) (call_args.getD i default)
          else entries.getD i default))
    | none => in_axes

/-- Claim-side behaviour of a call to the fake-pmapped function: bind keyword
arguments to positional ones via `fn`'s signature, apply
`jax.vmap(fn, in_axes=adjusted, axis_name=axis_name)`, additionally jit the
vmapped function when `jit_result` is true, and call it on the bound
arguments. -/
def spec_pmap_call (vmapG : VmapT) (jitG : JitT) (f : SigFn) (axis_name : Option String)
    (in_axes : InAxes) (sbaL : List Nat) (jit_result : Bool)
    (args : List V) (kwargs : List (String × V)) : Except PyErr V := do
  let call_args ← convert_to_varargs f.params args kwargs
  let axes := spec_pmap_axes in_axes sbaL call_args
  let vm := vmapG f.fn axes axis_name
  let vm2 := if jit_result then jitG vm ([], []) else vm
  pure (vm2 call_args)

/-! ### Helper lemmas -/

/-- Pure form of one static-argnum overwrite step (the effect of `sbaStepM`
when the index is in range). -/
def sbaStep (call_args : List V) (acc : List AxTree) (argnum : Nat) : List AxTree :=
  acc.set argnum (treeMap (fun _ => (none : Option Int)) (call_args.getD argnum default))

theorem get?_lt {α : Type} {d : α} : ∀ {l : List α} {i : Nat}, i < l.length →
    l.get? i = some (l.getD i d)
  | [], i, h => absurd h (by simp)
  | a :: t, 0, _ => rfl
  | a :: t, i + 1, h => by
      rw [List.get?_cons_succ, List.getD_cons_succ]
      exact get?_lt (Nat.lt_of_succ_lt_succ h)

theorem getD_set_self {α : Type} {v d : α} : ∀ {l : List α} {a : Nat}, a < l.length →
    (l.set a v).getD a d = v
  | [], a, h => absurd h (by simp)
  | x :: t, 0, _ => rfl
  | x :: t, a + 1, h => by
      rw [List.set_cons_succ, List.getD_cons_succ]
      exact getD_set_self (Nat.lt_of_succ_lt_succ h)

theorem getD_set_ne {α : Type} {v d : α} : ∀ {l : List α} {a i : Nat}, a ≠ i →
    (l.set a v).getD i d = l.getD i d
  | [], _, _, _ => rfl
  | x :: t, 0, 0, h => absurd rfl h
  | x :: t, 0, i + 1, _ => by rw [List.set_cons_zero, List.getD_cons_succ, List.getD_cons_succ]
  | x :: t, a + 1, 0, _ => by rw [List.set_cons_succ, List.getD_cons_zero, List.getD_cons_zero]
  | x :: t, a + 1, i + 1, h => by
      rw [List.set_cons_succ, List.getD_cons_succ, List.getD_cons_succ]
      exact getD_set_ne (fun he => h (by rw [he]))

theorem range_map_getD {α : Type} (d : α) : ∀ (l : List α),
    (List.range l.length).map (fun i => l.getD i d) = l
  | [] => rfl
  | a :: t => by
      rw [List.length_cons, List.range_succ_eq_map, List.map_cons, List.map_map]
      have h1 : (a :: t).getD 0 d = a := rfl
      have h2 : ((fun i => (a :: t).getD i d) ∘ Nat.succ) = fun i => t.getD i d :=
        funext (fun i => List.getD_cons_succ)
      rw [h1, h2, range_map_getD d t]

theorem foldl_sbaStep_eq (call_args : List V) : ∀ (sbaL : List Nat) (base : List AxTree),
    sbaL.foldl (sbaStep call_args) base
      = (List.range base.length).map (fun i =>
          if i ∈ sbaL then treeMap (fun _ => (none : Option Int)) (call_args.getD i default)
          else base.getD i default)
  | [], base => by
      rw [List.foldl_nil]
      have h : (fun i => if i ∈ ([] : List Nat)
            then treeMap (fun _ => (none : Option Int)) (call_args.getD i default)
            else base.getD i default) = fun i => base.getD i default := by
        funext i; simp
      rw [h, range_map_getD]
  | a :: L, base => by
      rw [List.foldl_cons, foldl_sbaStep_eq call_args L (sbaStep call_args base a)]
      have hlen : (sbaStep call_args base a).length = base.length := List.length_set base a _
      rw [hlen]
      apply List.map_congr_left
      intro i hi
      have hilt : i < base.length := List.mem_range.mp hi
      by_cases hiL : i ∈ L
      · rw [if_pos hiL, if_pos (List.mem_cons_of_mem a hiL)]
      · by_cases hia : i = a
        · subst hia
          rw [if_neg hiL, if_pos (List.mem_cons_self i L)]
          exact getD_set_self hilt
        · rw [if_neg hiL, if_neg (by simp [hia, hiL])]
          exact getD_set_ne (fun he => hia he.symm)

theorem foldlM_sbaStepM_ok (call_args : List V) : ∀ (sbaL : List Nat) (base : List AxTree),
    (∀ a ∈ sbaL, a < call_args.length ∧ a < base.length) →
    sbaL.foldlM (sbaStepM call_args) base = Except.ok (sbaL.foldl (sbaStep call_args) base)
  | [], base, _ => by rw [List.foldlM_nil, List.foldl_nil]; rfl
  | a :: L, base, h => by
      have ha := h a (List.mem_cons_self a L)
      have hstep : sbaStepM call_args base a = Except.ok (sbaStep call_args base a) := by
        unfold sbaStepM sbaStep
        rw [get?_lt (d := default) ha.1]
        simp [ha.2]
        rfl
      rw [List.foldlM_cons, List.foldl_cons, hstep]
      show (L.foldlM (sbaStepM call_args) (sbaStep call_args base a)) = _
      exact foldlM_sbaStepM_ok call_args L (sbaStep call_args base a) (fun b hb =>
        ⟨(h b (List.mem_cons_of_mem a hb)).1, by
          rw [sbaStep, List.length_set]
          exact (h b (List.mem_cons_of_mem a hb)).2⟩)

theorem exceptPureBind {α β : Type} (x : α) (f : α → Except PyErr β) :
    (pure x >>= f) = f x := rfl

theorem exceptOkBind {α β : Type} (x : α) (f : α → Except PyErr β) :
    (Except.ok x >>= f) = f x := rfl

theorem buildVmapInAxes_ok (in_axes : InAxes) (sbaL : List Nat) (call_args : List V)
    (entries : List AxTree) (hne : sbaL ≠ [])
    (hent : inAxesEntries in_axes call_args = some entries)
    (hbounds : ∀ a ∈ sbaL, a < entries.length ∧ a < call_args.length) :
    buildVmapInAxes in_axes sbaL call_args
      = Except.ok (spec_pmap_axes in_axes sbaL call_args) := by
  have hswap : ∀ a ∈ sbaL, a < call_args.length ∧ a < entries.length :=
    fun a ha => ⟨(hbounds a ha).2, (hbounds a ha).1⟩
  unfold buildVmapInAxes spec_pmap_axes
  cases in_axes with
  | noneAx => simp [inAxesEntries] at hent
  | dict d => simp [inAxesEntries] at hent
  | int n =>
      have hEnt : entries = call_args.map (fun a => treeMap (fun _ => (some n : Option Int)) a) := by
        have h2 := hent
        simp only [inAxesEntries, Option.some.injEq] at h2
        exact h2.symm
      subst hEnt
      rw [hent]
      simp only [hne, List.isEmpty_eq_true, if_neg, if_false, exceptPureBind]
      rw [foldlM_sbaStepM_ok call_args sbaL _ hswap, exceptOkBind, foldl_sbaStep_eq]
      rfl
  | seq l =>
      have hEnt : entries = l := by
        have h2 := hent
        simp only [inAxesEntries, Option.some.injEq] at h2
        exact h2.symm
      subst hEnt
      rw [hent]
      simp only [hne, List.isEmpty_eq_true, if_neg, if_false, exceptPureBind]
      rw [foldlM_sbaStepM_ok call_args sbaL _ hswap, exceptOkBind, foldl_sbaStep_eq]
      rfl

/-! ### Lemmas about the XLA_FLAGS model -/

theorem listStartsWith_append : ∀ (p r : List Char), listStartsWith p (p ++ r) = true
  | [], _ => rfl
  | a :: ps, r => by
      show (decide (a = a) && listStartsWith ps (ps ++ r)) = true
      rw [listStartsWith_append ps r]
      simp

theorem takeWhile_append_all {p : Char → Bool} : ∀ {l₁ l₂ : List Char},
    (∀ c ∈ l₁, p c = true) → (∀ c, l₂.head? = some c → p c = false) →
    (l₁ ++ l₂).takeWhile p = l₁ ∧ (l₁ ++ l₂).dropWhile p = l₂
  | [], l₂, _, h2 => by
      cases l₂ with
      | nil => exact ⟨rfl, rfl⟩
      | cons c cs =>
          have hc := h2 c rfl
          rw [List.nil_append]
          constructor
          · rw [List.takeWhile_cons, hc]
            simp
          · rw [List.dropWhile_cons, hc]
            simp
  | a :: t, l₂, h1, h2 => by
      have ha := h1 a (List.mem_cons_self a t)
      have ih := takeWhile_append_all (fun c hc => h1 c (List.mem_cons_of_mem a hc)) h2
      rw [List.cons_append, List.takeWhile_cons, List.dropWhile_cons, ha]
      simp only [if_true]
      exact ⟨by rw [ih.1], by rw [ih.2]⟩

/-- Little-endian decimal value. -/
def ofDigitsLE : List Nat → Nat
  | [] => 0
  | d :: L => d + 10 * ofDigitsLE L

theorem natDigitsRevF_lt_ten : ∀ (f n : Nat), ∀ d ∈ natDigitsRevF f n, d < 10
  | 0, _, d, hd => absurd hd (by simp [natDigitsRevF])
  | _ + 1, 0, d, hd => absurd hd (by simp [natDigitsRevF])
  | f + 1, m + 1, d, hd => by
      rw [natDigitsRevF] at hd
      rcases List.mem_cons.mp hd with h | h
      · rw [h]; exact Nat.mod_lt _ (by decide)
      · exact natDigitsRevF_lt_ten f ((m + 1) / 10) d h

theorem natDigitsRevF_val : ∀ (f n : Nat), n ≤ f → ofDigitsLE (natDigitsRevF f n) = n
  | 0, n, h => by
      have : n = 0 := Nat.le_zero.mp h
      subst this
      rfl
  | f + 1, 0, _ => rfl
  | f + 1, m + 1, h => by
      rw [natDigitsRevF, ofDigitsLE]
      have hdiv : (m + 1) / 10 ≤ f := by
        have h1 : (m + 1) / 10 < m + 1 := Nat.div_lt_self (Nat.succ_pos m) (by decide)
        omega
      rw [natDigitsRevF_val f ((m + 1) / 10) hdiv]
      exact Nat.mod_add_div (m + 1) 10

theorem charVal_digitChar {d : Nat} (h : d < 10) : charVal (Nat.digitChar d) = d := by
  interval_cases d <;> rfl

theorem isDigit_digitChar {d : Nat} (h : d < 10) : (Nat.digitChar d).isDigit = true := by
  interval_cases d <;> rfl

theorem parse_rev_digits : ∀ (L : List Nat), (∀ d ∈ L, d < 10) →
    parseDigits (L.reverse.map Nat.digitChar) = ofDigitsLE L
  | [], _ => rfl
  | d :: T, h => by
      have hd := h d (List.mem_cons_self d T)
      have ih := parse_rev_digits T (fun e he => h e (List.mem_cons_of_mem d he))
      rw [List.reverse_cons, List.map_append, List.map_cons, List.map_nil]
      unfold parseDigits
      rw [List.foldl_append]
      show (T.reverse.map Nat.digitChar).foldl (fun a c => a * 10 + charVal c) 0 * 10
          + charVal (Nat.digitChar d) = ofDigitsLE (d :: T)
      rw [charVal_digitChar hd]
      unfold parseDigits at ih
      rw [ih, ofDigitsLE]
      ring

theorem natCharsOf_ne_nil (n : Nat) : natCharsOf n ≠ [] := by
  cases n with
  | zero => simp [natCharsOf]
  | succ m =>
      simp only [natCharsOf, Nat.succ_ne_zero, if_false]
      rw [natDigitsRevF]
      simp

theorem natCharsOf_all_digits (n : Nat) : ∀ c ∈ natCharsOf n, c.isDigit = true := by
  cases n with
  | zero => intro c hc; simp [natCharsOf] at hc; rw [hc]; rfl
  | succ m =>
      intro c hc
      simp only [natCharsOf, Nat.succ_ne_zero, if_false, List.mem_map,
        List.mem_reverse] at hc
      obtain ⟨d, hd, hdc⟩ := hc
      rw [← hdc]
      exact isDigit_digitChar (natDigitsRevF_lt_ten _ _ d hd)

theorem parse_natCharsOf (n : Nat) : parseDigits (natCharsOf n) = n := by
  cases n with
  | zero => rfl
  | succ m =>
      simp only [natCharsOf, Nat.succ_ne_zero, if_false]
      rw [parse_rev_digits _ (natDigitsRevF_lt_ten (m + 1) (m + 1))]
      exact natDigitsRevF_val (m + 1) (m + 1) (Nat.le_refl _)

theorem matchFlagAt_mkFlag (n : Nat) (tail : List Char)
    (ht : tail = [] ∨ ∃ r, tail = ' ' :: r) :
    matchFlagAt (mkDeviceFlag n ++ tail) = some (some n, tail.drop 1) := by
  have hs : mkDeviceFlag n ++ tail
      = '-' :: '-' :: (flagLiteral ++ (natCharsOf n ++ tail)) := by
    simp [mkDeviceFlag, List.cons_append, List.append_assoc]
  have hcld : countLeadingDashes ('-' :: '-' :: (flagLiteral ++ (natCharsOf n ++ tail))) = 2 := by
    rw [show flagLiteral ++ (natCharsOf n ++ tail)
        = 'x' :: ("la_force_host_platform_device_count=".data ++ (natCharsOf n ++ tail))
      from rfl]
    simp [countLeadingDashes]
  have hnd : ∀ c, tail.head? = some c → c.isDigit = false := by
    intro c hc
    rcases ht with h | ⟨r, h⟩
    · rw [h] at hc; exact absurd hc (by simp)
    · rw [h] at hc
      simp only [List.head?_cons, Option.some.injEq] at hc
      rw [← hc]
      rfl
  have htw := takeWhile_append_all (natCharsOf_all_digits n) hnd
  have hie : (natCharsOf n).isEmpty = false := by
    cases hh : natCharsOf n with
    | nil => exact absurd hh (natCharsOf_ne_nil n)
    | cons a l => rfl
  have hgrp : digitGroup (natCharsOf n) = some n := by
    unfold digitGroup
    rw [hie]
    simp only [Bool.false_eq_true, if_false, parse_natCharsOf]
  rw [hs]
  unfold matchFlagAt
  rw [hcld, if_pos (by norm_num : (2 : Nat) ≤ 2)]
  rw [show List.drop 2 ('-' :: '-' :: (flagLiteral ++ (natCharsOf n ++ tail)))
      = flagLiteral ++ (natCharsOf n ++ tail) from rfl]
  rw [listStartsWith_append, if_pos rfl, List.drop_left]
  unfold matchAfterLiteral
  rw [htw.1, htw.2, hgrp]
  rcases ht with h | ⟨r, h⟩
  · rw [h]
    rfl
  · rw [h]
    rfl

theorem joinTokensTail_shape (toks : List (List Char)) :
    joinTokensTail toks = [] ∨ ∃ r, joinTokensTail toks = ' ' :: r := by
  cases toks with
  | nil => exact Or.inl rfl
  | cons t ts =>
      refine Or.inr ⟨t ++ joinTokensTail ts, ?_⟩
      simp [joinTokensTail]

/-! ### Claim theorems -/

/-- Claim C1 (refinement): within a `fake_pmap(enable_patching=True)` context,
applying the patched `jax.pmap` to a function with a given `axis_name`,
`in_axes` and `static_broadcasted_argnums` and then calling the result equals
calling `jax.vmap(fn, in_axes=adjusted, axis_name=axis_name)` on the call's
arguments after keyword arguments are bound to positional ones via the
signature, where `adjusted` replaces the `in_axes` entry of each static
argument position by `None` mapped over that argument's structure
(`spec_pmap_axes`), and where the vmapped function is additionally jitted when
`jit_result` is true (`spec_pmap_call` renders the claim's wording).
Hypotheses: the keyword binding succeeds, the dict-`in_axes`-with-static-args
case is excluded (it raises, claim C7), and when static argument positions are
given, `in_axes` has per-argument entries and the positions are in range. -/
theorem fake_pmap_refines_vmap {ε : Type} (s : JaxGlobals ε) (jit_result : Bool)
    (f : SigFn) (axis_name : Option String) (in_axes : InAxes) (sba : SbaArg)
    (args : List V) (kwargs : List (String × V)) (call_args : List V)
    (hbind : convert_to_varargs f.params args kwargs = .ok call_args)
    (hdict : ¬(normalizeSba sba ≠ [] ∧ in_axes.isDictForm = true))
    (hax : normalizeSba sba ≠ [] → ∃ entries,
        inAxesEntries in_axes call_args = some entries ∧
        ∀ a ∈ normalizeSba sba, a < entries.length ∧ a < call_args.length) :
    ((fake_pmap true jit_result s).1.pmap f axis_name in_axes sba).map
        (fun w => w args kwargs)
      = .ok (spec_pmap_call s.vmap s.jit f axis_name in_axes (normalizeSba sba)
          jit_result args kwargs) := by
  show Except.map (fun w => w args kwargs)
      (_fake_pmap s.vmap s.jit f axis_name in_axes sba jit_result)
    = Except.ok (spec_pmap_call s.vmap s.jit f axis_name in_axes (normalizeSba sba)
        jit_result args kwargs)
  have hguard : (!(normalizeSba sba).isEmpty && in_axes.isDictForm) = false := by
    by_cases hs : normalizeSba sba = []
    · simp [hs]
    · have hd : in_axes.isDictForm = false := by
        cases hdd : in_axes.isDictForm
        · rfl
        · exact absurd ⟨hs, hdd⟩ hdict
      simp [hd]
  unfold _fake_pmap
  simp only [hguard, Bool.false_eq_true, if_false, Except.map]
  unfold spec_pmap_call
  rw [hbind, exceptOkBind]
  by_cases hempty : normalizeSba sba = []
  · have hb : buildVmapInAxes in_axes (normalizeSba sba) call_args
        = Except.ok in_axes := by
      unfold buildVmapInAxes
      simp [hempty]
      rfl
    have hax2 : spec_pmap_axes in_axes (normalizeSba sba) call_args = in_axes := by
      unfold spec_pmap_axes
      simp [hempty]
    rw [hb, exceptOkBind]
    conv_rhs => rw [exceptOkBind]
    rw [hax2]
  · obtain ⟨entries, hent, hbounds⟩ := hax hempty
    rw [buildVmapInAxes_ok in_axes (normalizeSba sba) call_args entries hempty hent hbounds,
      exceptOkBind]
    rfl

/-- Claim C2: within a `fake_jit(enable_patching=True)` context, the patched
`jax.jit` applied to any function `fn`, with any further positional or keyword
arguments, returns `fn` itself unchanged. -/
theorem fake_jit_is_identity {ε : Type} (s : JaxGlobals ε) (fn : Fn) (extra : CallIn) :
    (fake_jit true s).1.jit fn extra = fn := rfl

/-- Claim C3: within an `OnCallOfTransformedFunction` context, every call of a
function transformed by the patched transformation invokes the callback
exactly once, on the originally-transformed function and the call's arguments,
before the transformed function runs (its events precede the transformed
function's events in the trace), the call returns exactly the transformed
function's result, and the callback's return value (of arbitrary type `δ`) is
discarded. -/
theorem onCall_callback_runs_once_before {ε δ : Type} (s : JaxGlobals ε)
    (callback_fn : TFn ε → CallIn → List ε × δ) (fn : TFn ε) (targs callIn : CallIn) :
    (OnCallOfTransformedFunction callback_fn s).1.target fn targs callIn
      = ((callback_fn (s.target fn targs) callIn).1 ++ (s.target fn targs callIn).1,
         (s.target fn targs callIn).2) := rfl

/-- Claim C4: every context restores each patched global (and, for `fake_jit`,
the `jax_disable_jit` setting) to the exact value it had before entry; the
restore action is applied to whatever state `t` is current at exit time. -/
theorem contexts_restore_patched_globals {ε δ : Type} (s t : JaxGlobals ε)
    (jit_result : Bool) (callback_fn : TFn ε → CallIn → List ε × δ) :
    (((fake_jit true s).2 t).jit = s.jit ∧
      ((fake_jit true s).2 t).disableJit = s.disableJit) ∧
    (((fake_pmap true jit_result s).2 t).pmap = s.pmap ∧
      ((fake_pmap true jit_result s).2 t).psum = s.psum ∧
      ((fake_pmap true jit_result s).2 t).pmean = s.pmean ∧
      ((fake_pmap true jit_result s).2 t).pmax = s.pmax ∧
      ((fake_pmap true jit_result s).2 t).pmin = s.pmin ∧
      ((fake_pmap true jit_result s).2 t).allGather = s.allGather) ∧
    (((fake_pmap_and_jit true true s).2 t).jit = s.jit ∧
      ((fake_pmap_and_jit true true s).2 t).disableJit = s.disableJit ∧
      ((fake_pmap_and_jit true true s).2 t).pmap = s.pmap ∧
      ((fake_pmap_and_jit true true s).2 t).psum = s.psum ∧
      ((fake_pmap_and_jit true true s).2 t).pmean = s.pmean ∧
      ((fake_pmap_and_jit true true s).2 t).pmax = s.pmax ∧
      ((fake_pmap_and_jit true true s).2 t).pmin = s.pmin ∧
      ((fake_pmap_and_jit true true s).2 t).allGather = s.allGather) ∧
    ((OnCallOfTransformedFunction callback_fn s).2 t).target = s.target :=
  ⟨⟨rfl, rfl⟩, ⟨rfl, rfl, rfl, rfl, rfl, rfl⟩,
    ⟨rfl, rfl, rfl, rfl, rfl, rfl, rfl, rfl⟩, rfl⟩

/-- Claim C5: on entering `fake_jit(enable_patching=True)`, the
`jax_disable_jit` configuration setting holds `True`, regardless of its value
before entry (restoration at exit is claim C4). -/
theorem fake_jit_disables_jit_config {ε : Type} (s : JaxGlobals ε) :
    (fake_jit true s).1.disableJit = true := rfl

/-- Claim C6: within a `fake_pmap(enable_patching=True)` context, the patched
`jax.lax.psum`, `pmean`, `pmax` and `pmin` each return their first argument
unchanged for every input and any further arguments. -/
theorem fake_pmap_collectives_identity {ε : Type} (s : JaxGlobals ε) (jit_result : Bool)
    (x : V) (extra : CallIn) :
    (fake_pmap true jit_result s).1.psum x extra = x ∧
    (fake_pmap true jit_result s).1.pmean x extra = x ∧
    (fake_pmap true jit_result s).1.pmax x extra = x ∧
    (fake_pmap true jit_result s).1.pmin x extra = x :=
  ⟨rfl, rfl, rfl, rfl⟩

/-- Claim C9: within a `fake_pmap(enable_patching=True)` context, the patched
`jax.lax.all_gather` maps `t ↦ t[jnp.newaxis]` over the input tree ignoring
further arguments: every array leaf gains a leading axis of size 1 (its rank
grows by one, its data is unchanged); in particular the operation is not the
identity. -/
theorem fake_all_gather_adds_leading_axis {ε : Type} (s : JaxGlobals ε)
    (jit_result : Bool) (x : V) (extra : CallIn) (t : Arr) :
    (fake_pmap true jit_result s).1.allGather x extra = treeMap addLeadingDim x ∧
    (addLeadingDim t).shape = 1 :: t.shape ∧
    (addLeadingDim t).data = t.data ∧
    (addLeadingDim t).shape.length = t.shape.length + 1 ∧
    (fake_pmap true jit_result s).1.allGather (PyTree.leaf ⟨[], []⟩) ([], [])
      ≠ PyTree.leaf ⟨[], []⟩ := by
  refine ⟨rfl, rfl, rfl, rfl, ?_⟩
  show treeMap addLeadingDim (PyTree.leaf ⟨[], []⟩) ≠ PyTree.leaf ⟨[], []⟩
  simp [treeMap, addLeadingDim]

/-- Claim C7: the patched `jax.pmap` is `_fake_pmap` (partially applied with
`jit_result`), and `_fake_pmap` raises `NotImplementedError` at transformation
time exactly when `static_broadcasted_argnums` is truthy (an int, or a
non-empty iterable) and `in_axes` is a dict; in every other combination the
transformation itself returns a wrapped function without raising. -/
theorem fake_pmap_rejects_dict_in_axes {ε : Type} (s : JaxGlobals ε)
    (vmapG : VmapT) (jitG : JitT) (f : SigFn) (axis_name : Option String)
    (in_axes : InAxes) (sba : SbaArg) (jit_result : Bool) :
    ((fake_pmap true jit_result s).1.pmap f axis_name in_axes sba
        = _fake_pmap s.vmap s.jit f axis_name in_axes sba jit_result) ∧
    ((normalizeSba sba ≠ [] ∧ in_axes.isDictForm = true) →
      _fake_pmap vmapG jitG f axis_name in_axes sba jit_result
        = .error .notImplementedError) ∧
    (¬(normalizeSba sba ≠ [] ∧ in_axes.isDictForm = true) →
      ∃ w, _fake_pmap vmapG jitG f axis_name in_axes sba jit_result = .ok w) := by
  refine ⟨rfl, ?_, ?_⟩
  · rintro ⟨h1, h2⟩
    have hg : (!(normalizeSba sba).isEmpty && in_axes.isDictForm) = true := by
      simp [h1, h2]
    unfold _fake_pmap
    simp [hg]
  · intro h
    have hg : (!(normalizeSba sba).isEmpty && in_axes.isDictForm) = false := by
      by_cases hs : normalizeSba sba = []
      · simp [hs]
      · have hd : in_axes.isDictForm = false := by
          cases hdd : in_axes.isDictForm
          · rfl
          · exact absurd ⟨hs, hdd⟩ h
        simp [hd]
    refine ⟨fun args kwargs => do
        let call_args ← convert_to_varargs f.params args kwargs
        let vmap_in_axes ← buildVmapInAxes in_axes (normalizeSba sba) call_args
        pure ((if jit_result = true then jitG (vmapG f.fn vmap_in_axes axis_name) ([], [])
          else vmapG f.fn vmap_in_axes axis_name) call_args), ?_⟩
    unfold _fake_pmap
    simp only [hg, Bool.false_eq_true, if_false]

/-! ### Concrete inputs used by the witness theorems -/

/-- A small concrete array. -/
def wArr : Arr := { shape := [2], data := [1, 2] }

/-- A concrete global state for witnesses (the opaque fields hold arbitrary
concrete values). -/
def wGlobals : JaxGlobals Unit := {
  vmap := fun g _ _ => g,
  jit := fun g _ => g,
  pmap := fun _ _ _ _ => .error .typeError,
  psum := _identity,
  pmean := _identity,
  pmax := _identity,
  pmin := _identity,
  allGather := _identity,
  disableJit := false,
  target := fun g _ => g }

/-- A concrete two-parameter function with signature `(x, y)`. -/
def wSig : SigFn := { params := ["x", "y"], fn := fun _ => default }

/-- Concrete positional arguments: `x` passed positionally. -/
def wArgs : List V := [PyTree.leaf wArr]

/-- Concrete keyword arguments: `y` passed by keyword. -/
def wKwargs : List (String × V) := [("y", PyTree.leaf wArr)]

/-- A concrete list-form `in_axes` with one entry per parameter. -/
def wInAxes : InAxes := .seq [PyTree.leaf (some 0), PyTree.leaf (some 0)]

/-- Witness for C1: the refinement theorem applied at a concrete state,
function, argument lists and `static_broadcasted_argnums=0`. -/
theorem fake_pmap_refines_vmap_witness :
    ((fake_pmap true false wGlobals).1.pmap wSig none wInAxes (.int 0)).map
        (fun w => w wArgs wKwargs)
      = .ok (spec_pmap_call wGlobals.vmap wGlobals.jit wSig none wInAxes
          (normalizeSba (.int 0)) false wArgs wKwargs) :=
  fake_pmap_refines_vmap wGlobals false wSig none wInAxes (.int 0) wArgs wKwargs
    [PyTree.leaf wArr, PyTree.leaf wArr] (by rfl) (by decide)
    (fun _ => ⟨[PyTree.leaf (some 0), PyTree.leaf (some 0)], rfl, by decide⟩)

/-- Witness for C7: at a dict `in_axes` with `static_broadcasted_argnums=0`,
the transformation raises `NotImplementedError`. -/
theorem fake_pmap_rejects_dict_in_axes_witness :
    _fake_pmap wGlobals.vmap wGlobals.jit wSig none (.dict []) (.int 0) false
      = .error .notImplementedError :=
  (fake_pmap_rejects_dict_in_axes wGlobals wGlobals.vmap wGlobals.jit wSig none
      (.dict []) (.int 0) false).2.1 ⟨by decide, rfl⟩

/-- Claim C8 (amended): for every `n ≥ 1` and every prior state, if
`set_n_cpu_devices(n)` returns without raising then the new `XLA_FLAGS` value
starts with the device-count flag carrying value `n` (as its first token,
followed by a space or the end of the string), and a subsequent
`get_n_cpu_devices_from_xla_flags()` returns `n`.  (The original claim's
"contains exactly one device-count flag" is refuted separately by a concrete
counterexample.) -/
theorem set_n_cpu_devices_roundtrip (n : Nat) (h1 : 1 ≤ n) (flagDefault : Nat)
    (backendInit : Bool) (xla envNew : List Char)
    (h2 : set_n_cpu_devices (some n) flagDefault backendInit xla = .ok envNew) :
    (∃ tail, envNew = mkDeviceFlag n ++ tail ∧ (tail = [] ∨ ∃ r, tail = ' ' :: r)) ∧
    listStartsWith (mkDeviceFlag n) envNew = true ∧
    get_n_cpu_devices_from_xla_flags envNew = .ok n := by
  have hn0 : n ≠ 0 := by omega
  have henv : envNew = set_n_env n xla := by
    unfold set_n_cpu_devices at h2
    simp only [hn0, if_false] at h2
    cases hg : get_n_cpu_devices_from_xla_flags xla with
    | error e =>
        rw [hg] at h2
        exact absurd h2 (by simp [Bind.bind, Except.bind])
    | ok nd =>
        rw [hg] at h2
        rw [exceptOkBind] at h2
        cases hc : (backendInit && nd != n) with
        | true =>
            rw [hc] at h2
            exact absurd h2 (by simp [throw, throwThe, MonadExceptOf.throw])
        | false =>
            rw [hc] at h2
            simp only [Bool.false_eq_true, if_false] at h2
            exact (Except.ok.inj h2).symm
  subst henv
  refine ⟨⟨joinTokensTail (splitWs (subFlagAll xla)), rfl, joinTokensTail_shape _⟩, ?_, ?_⟩
  · exact listStartsWith_append _ _
  · unfold get_n_cpu_devices_from_xla_flags
    rw [show set_n_env n xla = mkDeviceFlag n ++ joinTokensTail (splitWs (subFlagAll xla))
      from rfl]
    rw [matchFlagAt_mkFlag n _ (joinTokensTail_shape _)]

/-- Witness for C8: applying the round-trip theorem at `n = 3` from an empty
`XLA_FLAGS`. -/
theorem set_n_cpu_devices_roundtrip_witness :
    (∃ tail, set_n_env 3 [] = mkDeviceFlag 3 ++ tail ∧ (tail = [] ∨ ∃ r, tail = ' ' :: r)) ∧
    listStartsWith (mkDeviceFlag 3) (set_n_env 3 []) = true ∧
    get_n_cpu_devices_from_xla_flags (set_n_env 3 []) = .ok 3 :=
  set_n_cpu_devices_roundtrip 3 (by decide) 1 false [] (set_n_env 3 []) (by rfl)

/-- A prior `XLA_FLAGS` value holding two adjacent device-count flags; the
single left-to-right pass of `re.sub` removes only the second one (no match
starts at the first flag because it is followed by `'-'`, not whitespace or
the end). -/
def dupFlagEnv : List Char :=
  "--xla_force_host_platform_device_count=5--xla_force_host_platform_device_count=7".data

/-- Counterexample to C8 as stated: starting from `dupFlagEnv`,
`set_n_cpu_devices(2)` returns without raising but the resulting `XLA_FLAGS`
contains two device-count flags (the fresh one and a leftover), not exactly
one — although the fresh flag is first and the getter still returns 2. -/
theorem set_n_cpu_devices_exactly_one_flag_counterexample :
    set_n_cpu_devices (some 2) 1 false dupFlagEnv = .ok (set_n_env 2 dupFlagEnv) ∧
    set_n_env 2 dupFlagEnv =
      "--xla_force_host_platform_device_count=2 --xla_force_host_platform_device_count=5".data ∧
    countFlagMatches (set_n_env 2 dupFlagEnv) = 2 ∧
    get_n_cpu_devices_from_xla_flags (set_n_env 2 dupFlagEnv) = .ok 2 :=
  ⟨rfl, rfl, rfl, rfl⟩

/-- Claim C10: `get_n_cpu_devices_from_xla_flags` returns the parsed count
exactly when the anchored match at the start of `XLA_FLAGS` succeeds with a
digit group; whenever the anchored match fails — in particular for the
unset/empty value `[]`, and for any value whose first character is neither
`'-'` nor `'x'` (so even if a device-count flag occurs later in the string) —
it returns 1. -/
theorem get_n_cpu_devices_anchored :
    (∀ s d rest, matchFlagAt s = some (some d, rest) →
      get_n_cpu_devices_from_xla_flags s = .ok d) ∧
    (∀ s, matchFlagAt s = none → get_n_cpu_devices_from_xla_flags s = .ok 1) ∧
    get_n_cpu_devices_from_xla_flags [] = .ok 1 ∧
    (∀ c s, c ≠ '-' → c ≠ 'x' → get_n_cpu_devices_from_xla_flags (c :: s) = .ok 1) := by
  refine ⟨?_, ?_, rfl, ?_⟩
  · intro s d rest h
    unfold get_n_cpu_devices_from_xla_flags
    rw [h]
  · intro s h
    unfold get_n_cpu_devices_from_xla_flags
    rw [h]
  · intro c s hc hx
    have h0 : countLeadingDashes (c :: s) = 0 := by
      unfold countLeadingDashes
      rw [if_neg hc]
    have hsw : listStartsWith flagLiteral (c :: s) = false := by
      rw [show flagLiteral = 'x' :: "la_force_host_platform_device_count=".data from rfl]
      show (decide ('x' = c) && _) = false
      rw [decide_eq_false (fun h => hx h.symm)]
      rfl
    have hm : matchFlagAt (c :: s) = none := by
      unfold matchFlagAt
      rw [h0, if_pos (by norm_num : (0 : Nat) ≤ 2), List.drop_zero, hsw]
      rfl
    unfold get_n_cpu_devices_from_xla_flags
    rw [hm]

/-- Witness for C10: a device-count flag placed after the first position
(behind a leading space) is ignored and the getter returns 1. -/
theorem get_n_cpu_devices_anchored_witness :
    get_n_cpu_devices_from_xla_flags (' ' :: mkDeviceFlag 5) = .ok 1 :=
  get_n_cpu_devices_anchored.2.2.2 ' ' (mkDeviceFlag 5) (by decide) (by decide)

end ChexFake
